import Mathlib

/-!
Shallow embedding of `src/traffic_analyzer/TrafficAnalyzer.py`.

Modelling conventions:
- A parsed data row (polars schema `dt: Datetime, count: Int64`) is a `Record`
  with `dt` in seconds since 1970-01-01 (the source format has second
  precision) and `count : Int` (Int64 overflow is not modelled; vehicle
  counts are small).
- The analyzer field `self.lf` is `Option LF`; `LF.faulty` models a lazy
  frame whose operations raise (as in the repository's exception tests),
  `LF.data rows` a well-formed frame holding `rows`.
- Each public query is `catchDefault dflt body`: the Python `try/except`
  that converts any raised error into the documented default.
- The polars `sort` on one key is modelled as a stable sort
  (`List.insertionSort`): a deterministic refinement of the library sort.
- `strftime "%Y-%m-%d"` is modelled as the epoch-day index `dt / 86400`;
  for four-digit years the lexicographic order of the date strings agrees
  with the numeric order of the day indices.
-/

namespace Traffic

/-- One parsed data row: timestamp (seconds since epoch) and vehicle count. -/
structure Record where
  dt : Nat
  count : Int
deriving Repr, DecidableEq

/-- The analyzer's lazy frame: either well-formed data or a frame whose
operations raise (used by the repository's exception-handling tests). -/
inductive LF where
  | data (rows : List Record) : LF
  | faulty : LF
deriving Repr, DecidableEq

/-- The analyzer state: `self.lf`, which is `None` until data is added. -/
abbrev State := Option LF

/-- The `except Exception: return default` boundary wrapped around every
public query in the source. -/
def catchDefault {α : Type} (d : α) : Except String α → α
  | .ok v => v
  | .error _ => d

/-- Sort key for `.sort("dt")`. -/
def dtLE (a b : Record) : Prop := a.dt ≤ b.dt

instance : DecidableRel dtLE := fun a b => inferInstanceAs (Decidable (a.dt ≤ b.dt))

/-- Sort key for `.sort(by=["count"], descending=[True])`. -/
def countDescLE (a b : Record) : Prop := b.count ≤ a.count

instance : DecidableRel countDescLE := fun a b => inferInstanceAs (Decidable (b.count ≤ a.count))

/-! ### total -/

/-- Body of `total()` inside the `try`: `lf.select(pl.col("count").sum())`.
`None` state returns 0 before any frame operation; a faulty frame raises. -/
def totalBody : State → Except String Int
  | none => .ok 0
  | some .faulty => .error "boom-select"
  | some (.data rows) => .ok (rows.foldl (fun acc r => acc + r.count) 0)

/-- Public `total()`: the body with the catch-log-default boundary. -/
def total (s : State) : Int := catchDefault 0 (totalBody s)

/-! ### per_day -/

/-- Date of a record: `dt.strftime("%Y-%m-%d")` modelled as the epoch-day
index. -/
def dateOf (r : Record) : Nat := r.dt / 86400

/-- The `group_by("date").agg(sum)` step: one `(date, total_cars)` pair per
distinct date (group order irrelevant: the pipeline sorts afterwards). -/
def dayGroups (rows : List Record) : List (Nat × Int) :=
  ((rows.map dateOf).dedup).map fun d =>
    (d, ((rows.filter fun r => dateOf r = d).map Record.count).sum)

/-- Sort key for `.sort("date")`. -/
def dateLE (a b : Nat × Int) : Prop := a.1 ≤ b.1

instance : DecidableRel dateLE := fun a b => inferInstanceAs (Decidable (a.1 ≤ b.1))

/-- Body of `per_day()` inside the `try`: group by date, sum, sort by date. -/
def perDayBody : State → Except String (List (Nat × Int))
  | none => .ok []
  | some .faulty => .error "boom-with_columns"
  | some (.data rows) => .ok ((dayGroups rows).insertionSort dateLE)

/-- Public `per_day()`: list of `(date, total_cars)` rows. -/
def per_day (s : State) : List (Nat × Int) := catchDefault [] (perDayBody s)

/-! ### top_k -/

/-- Body of `top_k(k)` inside the `try`: sort by count descending (stable),
take the first `k` rows. -/
def topKBody (s : State) (k : Nat) : Except String (List Record) :=
  match s with
  | none => .ok []
  | some .faulty => .error "boom-sort"
  | some (.data rows) => .ok ((rows.insertionSort countDescLE).take k)

/-- Public `top_k(k)`. -/
def top_k (s : State) (k : Nat) : List Record := catchDefault [] (topKBody s k)

/-! ### min_window_sum -/

/-- The `shift(-1)/shift(-2)` columns: each row paired with its next two
rows in order. Rows whose shifted columns would be null (the last two) are
absent, matching the null-propagating filter in the source. -/
def windows3 : List Record → List (Record × Record × Record)
  | a :: b :: c :: rest => (a, b, c) :: windows3 (b :: c :: rest)
  | _ => []

/-- The contiguity filter: `dt1 - dt == 30min` and `dt2 - dt1 == 30min`
(1800 seconds each). -/
def contiguous (t : Record × Record × Record) : Prop :=
  t.2.1.dt = t.1.dt + 1800 ∧ t.2.2.dt = t.2.1.dt + 1800

instance : DecidablePred contiguous := fun t =>
  inferInstanceAs (Decidable (t.2.1.dt = t.1.dt + 1800 ∧ t.2.2.dt = t.2.1.dt + 1800))

/-- All qualifying windows: consecutive triples of the dt-sorted dataset
that pass the contiguity filter, in ascending start order. -/
def qualifying (rows : List Record) : List (Record × Record × Record) :=
  (windows3 (rows.insertionSort dtLE)).filter fun t => decide (contiguous t)

/-- The `sum_count` column of a window row. -/
def windowSum (t : Record × Record × Record) : Int :=
  t.1.count + t.2.1.count + t.2.2.count

/-- Sort key for `.sort("sum_count")`. -/
def sumLE (a b : Record × Record × Record) : Prop := windowSum a ≤ windowSum b

instance : DecidableRel sumLE := fun a b =>
  inferInstanceAs (Decidable (windowSum a ≤ windowSum b))

/-- The formatted result dict `{"datetime_range": [dt, dt1, dt2],
"total_cars": sum}`. -/
structure Window where
  dt0 : Nat
  dt1 : Nat
  dt2 : Nat
  total_cars : Int
deriving Repr, DecidableEq

/-- Formatting of the selected window row. -/
def mkWindow (t : Record × Record × Record) : Window :=
  ⟨t.1.dt, t.2.1.dt, t.2.2.dt, windowSum t⟩

/-- Body of `min_window_sum()` inside the `try`: sort by dt, build shifted
triples, filter contiguity, sort by sum, `limit(1)`. -/
def minWindowBody : State → Except String (Option Window)
  | none => .ok none
  | some .faulty => .error "boom-sort"
  | some (.data rows) =>
      .ok ((((qualifying rows).insertionSort sumLE).head?).map mkWindow)

/-- Public `min_window_sum()`: `none` models the empty dict `{}`. -/
def min_window_sum (s : State) : Option Window := catchDefault none (minWindowBody s)

/-! ### Ingestion: scan_csv and add_paths -/

/-- One scanned CSV row. With `ignore_errors=True` a field whose value fails
to parse under the declared schema becomes null (`none`); the line itself is
not dropped. -/
structure Row where
  dt : Option Nat
  count : Option Int
deriving Repr, DecidableEq

/-- Numeric value of a decimal digit character. -/
def digitVal (c : Char) : Nat := c.toNat - 48

/-- Gregorian leap-year test. -/
def isLeap (y : Nat) : Bool := (y % 4 == 0 && y % 100 != 0) || y % 400 == 0

/-- Number of days in month `m` of year `y` (months 1..12). -/
def daysInMonth (y m : Nat) : Nat :=
  if m = 2 then (if isLeap y then 29 else 28)
  else if m = 4 ∨ m = 6 ∨ m = 9 ∨ m = 11 then 30
  else 31

/-- Days from 1970-01-01 to the start of year `y`. -/
def daysBeforeYear (y : Nat) : Nat :=
  (List.range (y - 1970)).foldl
    (fun acc i => acc + (if isLeap (1970 + i) then 366 else 365)) 0

/-- Days from the start of year `y` to the start of its month `m`. -/
def daysBeforeMonth (y m : Nat) : Nat :=
  (List.range (m - 1)).foldl (fun acc i => acc + daysInMonth y (i + 1)) 0

/-- Datetime parse of a `YYYY-MM-DDTHH:MM:SS` field into seconds since
epoch; any malformed or out-of-range component yields null. Years before
1970 are outside the model's clock range and also yield null. -/
def parseDatetime (cs : List Char) : Option Nat :=
  match cs with
  | [y1, y2, y3, y4, '-', m1, m2, '-', d1, d2, 'T', h1, h2, ':', n1, n2, ':', s1, s2] =>
    if y1.isDigit && y2.isDigit && y3.isDigit && y4.isDigit &&
        m1.isDigit && m2.isDigit && d1.isDigit && d2.isDigit &&
        h1.isDigit && h2.isDigit && n1.isDigit && n2.isDigit &&
        s1.isDigit && s2.isDigit then
      let y := 1000 * digitVal y1 + 100 * digitVal y2 + 10 * digitVal y3 + digitVal y4
      let mo := 10 * digitVal m1 + digitVal m2
      let d := 10 * digitVal d1 + digitVal d2
      let h := 10 * digitVal h1 + digitVal h2
      let mi := 10 * digitVal n1 + digitVal n2
      let sec := 10 * digitVal s1 + digitVal s2
      if 1970 ≤ y ∧ 1 ≤ mo ∧ mo ≤ 12 ∧ 1 ≤ d ∧ d ≤ daysInMonth y mo ∧
          h ≤ 23 ∧ mi ≤ 59 ∧ sec ≤ 59 then
        some ((daysBeforeYear y + daysBeforeMonth y mo + (d - 1)) * 86400 +
          h * 3600 + mi * 60 + sec)
      else none
    else none
  | _ => none

/-- Parse of an unsigned decimal digit run. -/
def parseDigits (cs : List Char) : Option Nat :=
  if cs ≠ [] ∧ cs.all Char.isDigit then
    some (cs.foldl (fun acc c => 10 * acc + digitVal c) 0)
  else none

/-- Int64 parse of the count field: optional sign, digits, 64-bit range. -/
def parseCount (cs : List Char) : Option Int :=
  let signed : Option Int :=
    match cs with
    | '-' :: rest => (parseDigits rest).map fun n => -(n : Int)
    | '+' :: rest => (parseDigits rest).map fun n => (n : Int)
    | _ => (parseDigits cs).map fun n => (n : Int)
  signed.bind fun n => if -(2 ^ 63 : Int) ≤ n ∧ n < 2 ^ 63 then some n else none

/-- Split a line on the `separator=" "` into fields (always at least one). -/
def splitFields : List Char → List (List Char)
  | [] => [[]]
  | c :: rest =>
    if c = ' ' then [] :: splitFields rest
    else
      match splitFields rest with
      | [] => [[c]]
      | f :: fs => (c :: f) :: fs

/-- Parse one CSV line against the two-column schema: a missing field is
null; a third and later field is ignored in this model. -/
def parseLine (s : String) : Row :=
  match splitFields s.toList with
  | [] => ⟨none, none⟩
  | [f0] => ⟨parseDatetime f0, none⟩
  | f0 :: f1 :: _ => ⟨parseDatetime f0, parseCount f1⟩

/-- The rows `scan_csv` produces from one source: every non-blank line
yields exactly one row. -/
def scanFile (lines : List String) : List Row :=
  (lines.filter fun l => l != "").map parseLine

/-- One argument of `add_paths`: either a well-typed path whose scan yields
the given lines, or a value on which `scan_csv` raises immediately (for
example the `None` of the repository's exception test). -/
inductive Source where
  | invalid : Source
  | file (lines : List String) : Source

/-- The `if self.lf is None: self.lf = scan else: concat` step. -/
def mergeScan (st : Option (List Row)) (scan : List Row) : Option (List Row) :=
  match st with
  | none => some scan
  | some acc => some (acc ++ scan)

/-- The `for p in paths` loop of `add_paths`. The `try` sits outside the
loop, so a raising source ends the whole loop; the `except` keeps the state
merged so far and returns normally. -/
def addPathsLoop : Option (List Row) → List Source → Option (List Row)
  | st, [] => st
  | st, (Source.invalid :: _) => st
  | st, (Source.file ls :: rest) => addPathsLoop (mergeScan st (scanFile ls)) rest

/-- The rows ingested by one `add_paths` call: everything from the sources
strictly before the first raising source. -/
def ingestUntilInvalid : List Source → List Row
  | [] => []
  | Source.invalid :: _ => []
  | Source.file ls :: rest => scanFile ls ++ ingestUntilInvalid rest

/-! ### Order instances for the sort keys -/

instance : IsTotal Record dtLE := ⟨fun a b => Nat.le_total a.dt b.dt⟩

instance : IsTrans Record dtLE := ⟨fun _ _ _ h h' => Nat.le_trans h h'⟩

instance : IsTotal Record countDescLE := ⟨fun a b => Int.le_total b.count a.count⟩

instance : IsTrans Record countDescLE := ⟨fun _ _ _ h h' => Int.le_trans h' h⟩

instance : IsTotal (Nat × Int) dateLE := ⟨fun a b => Nat.le_total a.1 b.1⟩

instance : IsTrans (Nat × Int) dateLE := ⟨fun _ _ _ h h' => Nat.le_trans h h'⟩

instance : IsTotal (Record × Record × Record) sumLE :=
  ⟨fun a b => Int.le_total (windowSum a) (windowSum b)⟩

instance : IsTrans (Record × Record × Record) sumLE :=
  ⟨fun _ _ _ h h' => Int.le_trans h h'⟩

/-! ### Helper lemmas -/

theorem foldl_add_count (rows : List Record) (a : Int) :
    rows.foldl (fun acc r => acc + r.count) a = a + (rows.map Record.count).sum := by
  induction rows generalizing a with
  | nil => simp
  | cons r rs ih => simp [ih, add_assoc]

/-! ### C3: total is the literal sum of counts -/

/-- C3: for every dataset, `total()` is the literal sum of the `count`
field over every record; for an absent dataset and for an empty dataset it
returns 0. -/
theorem total_eq_sum_of_counts :
    (∀ rows : List Record, total (some (.data rows)) = (rows.map Record.count).sum) ∧
    total none = 0 ∧ total (some (.data [])) = 0 := by
  refine ⟨fun rows => ?_, rfl, rfl⟩
  simp [total, totalBody, catchDefault, foldl_add_count]

/-! ### C10: top_k with k = 0 -/

/-- C10: on every analyzer state, including non-empty datasets,
`top_k(0)` returns the empty sequence. -/
theorem top_k_zero_eq_nil (s : State) : top_k s 0 = [] := by
  cases s with
  | none => rfl
  | some lf =>
    cases lf with
    | data rows => simp [top_k, topKBody, catchDefault]
    | faulty => rfl

/-! ### C7: every query is total and degrades to its documented default -/

/-- C7: every query is a total function of the analyzer state; whenever its
body raises (models the `except` branch), the query returns its documented
default (0, `[]`, `[]`, `{}`), and on a freshly constructed analyzer
(`lf = None`) all four queries return those defaults. -/
theorem queries_never_raise_and_default (s : State) (k : Nat) :
    (∀ e, totalBody s = .error e → total s = 0) ∧
    (∀ e, perDayBody s = .error e → per_day s = []) ∧
    (∀ e, topKBody s k = .error e → top_k s k = []) ∧
    (∀ e, minWindowBody s = .error e → min_window_sum s = none) ∧
    (s = none → total s = 0 ∧ per_day s = [] ∧ top_k s k = [] ∧
      min_window_sum s = none) := by
  refine ⟨fun e h => ?_, fun e h => ?_, fun e h => ?_, fun e h => ?_, fun h => ?_⟩
  · simp [total, h, catchDefault]
  · simp [per_day, h, catchDefault]
  · simp [top_k, h, catchDefault]
  · simp [min_window_sum, h, catchDefault]
  · subst h; exact ⟨rfl, rfl, rfl, rfl⟩

/-- Witness for C7: on the faulty frame of the repository's exception tests
and on the fresh analyzer, all four queries return the documented
defaults. -/
theorem queries_never_raise_and_default_witness :
    total (some .faulty) = 0 ∧ per_day (some .faulty) = [] ∧
    top_k (some .faulty) 3 = [] ∧ min_window_sum (some .faulty) = none ∧
    total none = 0 ∧ per_day none = [] ∧ top_k none 3 = [] ∧
    min_window_sum none = none := by
  have h := queries_never_raise_and_default (some .faulty) 3
  have h0 := queries_never_raise_and_default none 3
  have hd := h0.2.2.2.2 rfl
  exact ⟨h.1 "boom-select" rfl, h.2.1 "boom-with_columns" rfl,
    h.2.2.1 "boom-sort" rfl, h.2.2.2.1 "boom-sort" rfl,
    hd.1, hd.2.1, hd.2.2.1, hd.2.2.2⟩

/-! ### Grouping lemmas for per_day -/

theorem sum_map_add_split {α : Type} (l : List α) (f g : α → Int) :
    (l.map fun x => f x + g x).sum = (l.map f).sum + (l.map g).sum := by
  induction l with
  | nil => simp
  | cons a t ih => simp only [List.map_cons, List.sum_cons, ih]; ring

theorem sum_indicator_of_nodup (ds : List Nat) (x : Nat) (c : Int)
    (hnd : ds.Nodup) (hx : x ∈ ds) :
    (ds.map fun d => if x = d then c else 0).sum = c := by
  induction ds with
  | nil => simp at hx
  | cons d ds ih =>
    rw [List.nodup_cons] at hnd
    by_cases h : x = d
    · subst h
      have hz : (ds.map fun d' => if x = d' then c else 0).sum = 0 :=
        List.sum_eq_zero fun y hy => by
          obtain ⟨d', hd', rfl⟩ := List.mem_map.mp hy
          simp [show x ≠ d' from fun hh => hnd.1 (hh ▸ hd')]
      simp [hz]
    · rcases List.mem_cons.mp hx with h' | h'
      · exact absurd h' h
      · simp [h, ih hnd.2 h']

theorem fiber_sum (ds : List Nat) (hnd : ds.Nodup) :
    ∀ rows : List Record, (∀ r ∈ rows, dateOf r ∈ ds) →
      (ds.map fun d =>
        ((rows.filter fun r => dateOf r = d).map Record.count).sum).sum
        = (rows.map Record.count).sum := by
  intro rows
  induction rows with
  | nil => intro _; simp
  | cons r rs ih =>
    intro hcov
    have hr : dateOf r ∈ ds := hcov r (by simp)
    have hcov' : ∀ x ∈ rs, dateOf x ∈ ds := fun x hx =>
      hcov x (List.mem_cons_of_mem _ hx)
    have hsplit :
        (ds.map fun d =>
          (((r :: rs).filter fun x => dateOf x = d).map Record.count).sum)
        = ds.map fun d => (if dateOf r = d then r.count else 0) +
            ((rs.filter fun x => dateOf x = d).map Record.count).sum := by
      apply List.map_congr_left
      intro d _
      by_cases hrd : dateOf r = d <;> simp [List.filter_cons, hrd]
    rw [hsplit, sum_map_add_split, sum_indicator_of_nodup ds (dateOf r) r.count hnd hr,
      ih hcov']
    simp

/-! ### C5: per_day totals sum to total -/

/-- C5: on every analyzer state, the sum of the `total_cars` fields of the
rows returned by `per_day()` equals `total()`. -/
theorem per_day_sums_to_total (s : State) :
    ((per_day s).map Prod.snd).sum = total s := by
  cases s with
  | none => rfl
  | some lf =>
    cases lf with
    | faulty => rfl
    | data rows =>
      show ((List.insertionSort dateLE (dayGroups rows)).map Prod.snd).sum
          = total (some (.data rows))
      have hperm : ((List.insertionSort dateLE (dayGroups rows)).map Prod.snd).Perm
          ((dayGroups rows).map Prod.snd) := (List.perm_insertionSort _ _).map _
      rw [hperm.sum_eq]
      have h1 : (dayGroups rows).map Prod.snd
          = ((rows.map dateOf).dedup).map fun d =>
              ((rows.filter fun r => dateOf r = d).map Record.count).sum := by
        simp [dayGroups, List.map_map]
      rw [h1, fiber_sum _ (List.nodup_dedup _) rows
        (fun r hr => List.mem_dedup.mpr (List.mem_map_of_mem _ hr))]
      simp [total, totalBody, catchDefault, foldl_add_count]

/-! ### C4: per_day groups, sums and sorts by date -/

/-- C4: `per_day()` returns the empty sequence on the absent and the empty
dataset; otherwise its date keys are strictly ascending, exhaustive over
exactly the distinct dates present, and each row's `total_cars` is the sum
of `count` over the records of that date. -/
theorem per_day_spec :
    per_day none = [] ∧ per_day (some (.data [])) = [] ∧
    ∀ rows : List Record,
      ((per_day (some (.data rows))).Pairwise fun a b => a.1 < b.1) ∧
      (∀ d : Nat, (∃ p ∈ per_day (some (.data rows)), p.1 = d) ↔
        ∃ r ∈ rows, dateOf r = d) ∧
      (∀ p ∈ per_day (some (.data rows)),
        p.2 = ((rows.filter fun r => dateOf r = p.1).map Record.count).sum) := by
  refine ⟨rfl, rfl, fun rows => ?_⟩
  have hpd : per_day (some (.data rows)) = List.insertionSort dateLE (dayGroups rows) := rfl
  have hsorted : (List.insertionSort dateLE (dayGroups rows)).Pairwise dateLE :=
    List.sorted_insertionSort dateLE (dayGroups rows)
  have hkeys : (dayGroups rows).map Prod.fst = (rows.map dateOf).dedup := by
    simp [dayGroups, List.map_map, Function.comp_def]
  have hnd : ((List.insertionSort dateLE (dayGroups rows)).map Prod.fst).Nodup := by
    refine ((List.perm_insertionSort dateLE (dayGroups rows)).map Prod.fst).symm.nodup ?_
    rw [hkeys]; exact List.nodup_dedup _
  have hne : (List.insertionSort dateLE (dayGroups rows)).Pairwise
      fun a b => a.1 ≠ b.1 := List.pairwise_map.mp hnd
  refine ⟨?_, fun d => ?_, fun p hp => ?_⟩
  · rw [hpd]
    exact (hsorted.and hne).imp fun h => Nat.lt_of_le_of_ne h.1 h.2
  · rw [hpd]
    constructor
    · rintro ⟨p, hp, rfl⟩
      have hp' : p ∈ dayGroups rows := (List.mem_insertionSort _).mp hp
      obtain ⟨d', hd', rfl⟩ := List.mem_map.mp hp'
      obtain ⟨r, hr, hrd⟩ := List.mem_map.mp (List.mem_dedup.mp hd')
      exact ⟨r, hr, hrd⟩
    · rintro ⟨r, hr, rfl⟩
      refine ⟨(dateOf r, ((rows.filter fun x => dateOf x = dateOf r).map Record.count).sum),
        ?_, rfl⟩
      rw [List.mem_insertionSort]
      exact List.mem_map_of_mem _ (List.mem_dedup.mpr (List.mem_map_of_mem _ hr))
  · rw [hpd] at hp
    have hp' : p ∈ dayGroups rows := (List.mem_insertionSort _).mp hp
    obtain ⟨d', _, rfl⟩ := List.mem_map.mp hp'
    rfl

/-- Witness for C4: on a three-record dataset spanning two calendar dates,
the first returned row is date 0 with total 2 + 4. -/
theorem per_day_spec_witness :
    ((0, (6 : Int)) ∈ per_day (some (.data [⟨0, 2⟩, ⟨86400, 3⟩, ⟨10, 4⟩]))) ∧
    (6 : Int) = ((([⟨0, 2⟩, ⟨86400, 3⟩, ⟨10, 4⟩] : List Record).filter
      fun r => dateOf r = 0).map Record.count).sum := by
  have h := (per_day_spec.2.2 [⟨0, 2⟩, ⟨86400, 3⟩, ⟨10, 4⟩]).2.2 (0, 6) (by decide)
  exact ⟨by decide, h⟩

/-! ### Window lemmas -/

theorem windows3_fst_mem : ∀ {l : List Record} {t : Record × Record × Record},
    t ∈ windows3 l → t.1 ∈ l
  | a :: b :: c :: rest, t, h => by
    simp only [windows3, List.mem_cons] at h
    rcases h with h | h
    · subst h; simp
    · exact List.mem_cons_of_mem _ (windows3_fst_mem h)
  | [], _, h => by simp [windows3] at h
  | [_], _, h => by simp [windows3] at h
  | [_, _], _, h => by simp [windows3] at h

theorem windows3_pairwise :
    ∀ {l : List Record}, l.Pairwise dtLE →
      (windows3 l).Pairwise fun t t' => t.2.1.dt ≤ t'.1.dt
  | a :: b :: c :: rest, h => by
    have htail : (b :: c :: rest).Pairwise dtLE := h.of_cons
    simp only [windows3]
    refine List.Pairwise.cons ?_ (windows3_pairwise htail)
    intro t' ht'
    have h1 : t'.1 ∈ b :: c :: rest := windows3_fst_mem ht'
    rcases List.mem_cons.mp h1 with h1 | h1
    · rw [← h1]
    · exact List.rel_of_pairwise_cons htail h1
  | [], _ => by simp [windows3]
  | [_], _ => by simp [windows3]
  | [_, _], _ => by simp [windows3]

theorem qualifying_pairwise_start (rows : List Record) :
    (qualifying rows).Pairwise fun t t' => t.1.dt < t'.1.dt := by
  have hs : (rows.insertionSort dtLE).Pairwise dtLE := List.sorted_insertionSort dtLE rows
  have hq : (qualifying rows).Pairwise fun t t' => t.2.1.dt ≤ t'.1.dt :=
    List.Pairwise.sublist (List.filter_sublist _) (windows3_pairwise hs)
  refine hq.imp_of_mem ?_
  intro t t' ht _ hR
  have hc : contiguous t := of_decide_eq_true (List.mem_filter.mp ht).2
  calc t.1.dt < t.1.dt + 1800 := Nat.lt_add_of_pos_right (by norm_num)
    _ = t.2.1.dt := hc.1.symm
    _ ≤ t'.1.dt := hR

/-! ### C1: min_window_sum returns a minimal contiguous window -/

/-- C1: `min_window_sum()` returns `{}` on the absent dataset and whenever
no qualifying window exists; otherwise it returns a window built from a
triple of records that are consecutive in the dt-sorted dataset, 30 minutes
apart at each step, whose `total_cars` is the sum of the three counts and is
minimal over all qualifying windows. -/
theorem min_window_sum_spec :
    min_window_sum none = none ∧
    ∀ rows : List Record,
      (∀ w, min_window_sum (some (.data rows)) = some w →
        ∃ t ∈ qualifying rows, w = mkWindow t ∧ contiguous t ∧
          w.total_cars = t.1.count + t.2.1.count + t.2.2.count ∧
          ∀ t' ∈ qualifying rows, w.total_cars ≤ windowSum t') ∧
      (qualifying rows = [] → min_window_sum (some (.data rows)) = none) ∧
      (qualifying rows ≠ [] → ∃ w, min_window_sum (some (.data rows)) = some w) := by
  refine ⟨rfl, fun rows => ⟨fun w hw => ?_, fun hq => ?_, fun hq => ?_⟩⟩
  · have hw' : (((qualifying rows).insertionSort sumLE).head?).map mkWindow = some w := hw
    obtain ⟨t0, ht0, rfl⟩ := Option.map_eq_some'.mp hw'
    cases hl : (qualifying rows).insertionSort sumLE with
    | nil => rw [hl] at ht0; simp at ht0
    | cons a tl =>
      rw [hl] at ht0
      simp only [List.head?_cons, Option.some.injEq] at ht0
      subst ht0
      have hsorted : ((qualifying rows).insertionSort sumLE).Pairwise sumLE :=
        List.sorted_insertionSort sumLE (qualifying rows)
      rw [hl] at hsorted
      have ht0q : a ∈ qualifying rows :=
        (List.mem_insertionSort _).mp (hl ▸ List.mem_cons_self a tl)
      refine ⟨a, ht0q, rfl, of_decide_eq_true (List.mem_filter.mp ht0q).2, rfl, ?_⟩
      intro t' ht'
      have ht'' : t' ∈ a :: tl := hl ▸ (List.mem_insertionSort _).mpr ht'
      rcases List.mem_cons.mp ht'' with rfl | ht''
      · exact le_refl _
      · exact List.rel_of_pairwise_cons hsorted ht''
  · simp [min_window_sum, minWindowBody, catchDefault, hq]
  · have hne : (qualifying rows).insertionSort sumLE ≠ [] := by
      intro h
      exact hq ((h ▸ List.perm_insertionSort sumLE (qualifying rows)).symm.eq_nil)
    cases hl : (qualifying rows).insertionSort sumLE with
    | nil => exact absurd hl hne
    | cons a tl =>
      refine ⟨mkWindow a, ?_⟩
      show (((qualifying rows).insertionSort sumLE).head?).map mkWindow = some (mkWindow a)
      rw [hl]
      rfl

/-- Witness for C1: on a three-record contiguous dataset the unique window
is returned and is minimal. -/
theorem min_window_sum_spec_witness :
    ∃ t ∈ qualifying [⟨0, 5⟩, ⟨1800, 3⟩, ⟨3600, 4⟩],
      (⟨0, 1800, 3600, 12⟩ : Window) = mkWindow t ∧ contiguous t ∧
      (⟨0, 1800, 3600, 12⟩ : Window).total_cars =
        t.1.count + t.2.1.count + t.2.2.count ∧
      ∀ t' ∈ qualifying [⟨0, 5⟩, ⟨1800, 3⟩, ⟨3600, 4⟩],
        (⟨0, 1800, 3600, 12⟩ : Window).total_cars ≤ windowSum t' :=
  (min_window_sum_spec.2 [⟨0, 5⟩, ⟨1800, 3⟩, ⟨3600, 4⟩]).1 ⟨0, 1800, 3600, 12⟩ (by decide)

/-! ### C6: earliest start wins on ties -/

theorem pair_sublist_of_pairwise_asymm {α : Type} {S : α → α → Prop}
    (hasymm : ∀ a b, S a b → S b a → False) :
    ∀ l : List α, l.Pairwise S → ∀ x y, x ∈ l → y ∈ l → S x y → [x, y].Sublist l
  | [], _, x, _, hx, _, _ => by simp at hx
  | a :: tl, hp, x, y, hx, hy, hs => by
    rcases List.mem_cons.mp hx with rfl | hx'
    · rcases List.mem_cons.mp hy with rfl | hy'
      · exact absurd hs fun h => hasymm _ _ h h
      · exact (List.singleton_sublist.mpr hy').cons₂ x
    · rcases List.mem_cons.mp hy with rfl | hy'
      · exact absurd (List.rel_of_pairwise_cons hp hx') fun h => hasymm _ _ hs h
      · exact (pair_sublist_of_pairwise_asymm hasymm tl hp.of_cons x y hx' hy' hs).cons a

/-- C6: whenever `min_window_sum()` returns a window, every qualifying
window that ties with it on the sum starts no earlier: the earliest-starting
tied window is the one returned. -/
theorem min_window_sum_tie_earliest (rows : List Record) (w : Window)
    (hw : min_window_sum (some (.data rows)) = some w) :
    ∀ t' ∈ qualifying rows, windowSum t' = w.total_cars → w.dt0 ≤ t'.1.dt := by
  intro t' ht' hsum
  by_contra hnle
  push_neg at hnle
  have hw' : (((qualifying rows).insertionSort sumLE).head?).map mkWindow = some w := hw
  obtain ⟨t0, ht0, rfl⟩ := Option.map_eq_some'.mp hw'
  cases hl : (qualifying rows).insertionSort sumLE with
  | nil => rw [hl] at ht0; simp at ht0
  | cons a tl =>
    rw [hl] at ht0
    simp only [List.head?_cons, Option.some.injEq] at ht0
    subst ht0
    have hq := qualifying_pairwise_start rows
    have ht0q : a ∈ qualifying rows :=
      (List.mem_insertionSort _).mp (hl ▸ List.mem_cons_self a tl)
    have hS : t'.1.dt < a.1.dt := hnle
    have hpair : [t', a].Sublist (qualifying rows) :=
      pair_sublist_of_pairwise_asymm
        (fun _ _ h h' => absurd (h.trans h') (lt_irrefl _))
        (qualifying rows) hq t' a ht' ht0q hS
    have hle : sumLE t' a := le_of_eq hsum
    have hsub : [t', a].Sublist ((qualifying rows).insertionSort sumLE) :=
      List.pair_sublist_insertionSort hle hpair
    rw [hl] at hsub
    have hnd : (a :: tl).Nodup := by
      rw [← hl]
      refine (List.perm_insertionSort sumLE (qualifying rows)).symm.nodup ?_
      exact hq.imp fun h heq => by subst heq; exact lt_irrefl _ h
    cases hsub with
    | cons _ h' =>
      exact (List.nodup_cons.mp hnd).1 (h'.subset (by simp))
    | cons₂ _ _ =>
      exact absurd hS (lt_irrefl _)

/-- Witness for C6: two windows tie on sum 3; the returned window starts at
0, no later than the tied window starting at 1800. -/
theorem min_window_sum_tie_earliest_witness :
    windowSum (⟨1800, 1⟩, ⟨3600, 1⟩, ⟨5400, 1⟩) =
      Window.total_cars ⟨0, 1800, 3600, 3⟩ ∧
    Window.dt0 ⟨0, 1800, 3600, 3⟩ ≤ (⟨1800, 1⟩ : Record).dt := by
  refine ⟨by decide, ?_⟩
  exact min_window_sum_tie_earliest [⟨0, 1⟩, ⟨1800, 1⟩, ⟨3600, 1⟩, ⟨5400, 1⟩]
    ⟨0, 1800, 3600, 3⟩ (by decide)
    (⟨1800, 1⟩, ⟨3600, 1⟩, ⟨5400, 1⟩) (by decide) (by decide)

/-! ### C2: top_k tie ordering -/

/-- C2 failing input: `top_k` sorts only by count, so two records tying on
count stay in dataset order. With the later timestamp first in the dataset,
the output has equal counts but timestamps not in ascending order,
contradicting the documented "ties broken by ascending datetime". -/
theorem top_k_tie_not_datetime_sorted :
    top_k (some (.data [⟨1800, 5⟩, ⟨0, 5⟩])) 2 = [⟨1800, 5⟩, ⟨0, 5⟩] ∧
    ((top_k (some (.data [⟨1800, 5⟩, ⟨0, 5⟩])) 2).map Record.count).Pairwise
      (fun a b => b ≤ a) ∧
    ¬ ((top_k (some (.data [⟨1800, 5⟩, ⟨0, 5⟩])) 2).map Record.dt).Pairwise
      (· ≤ ·) := by decide

/-! ### C8: one failing source aborts the rest of the add_paths call -/

/-- C8 counterexample: a raising source followed by a valid one leaves the
valid source unread, because the `try` wraps the whole loop; the claim that
only the failing source is skipped is false. -/
theorem add_paths_later_source_skipped :
    addPathsLoop none
      [Source.invalid, Source.file ["1970-01-01T00:30:00 7"]] = none ∧
    scanFile ["1970-01-01T00:30:00 7"] = [⟨some 1800, some 7⟩] := by decide

/-- C8 amended: `add_paths` never raises and merges, in order, exactly the
rows of the sources preceding the first failing source; records merged
before the call (`acc`) are kept intact as a prefix of the state. -/
theorem add_paths_prefix_ingested (acc : List Row) (srcs : List Source) :
    addPathsLoop (some acc) srcs = some (acc ++ ingestUntilInvalid srcs) := by
  induction srcs generalizing acc with
  | nil => simp [addPathsLoop, ingestUntilInvalid]
  | cons src rest ih =>
    cases src with
    | invalid => simp [addPathsLoop, ingestUntilInvalid]
    | file ls =>
      simp only [addPathsLoop, ingestUntilInvalid, mergeScan, ih]
      rw [List.append_assoc]

/-! ### C9: malformed lines become null-valued rows, not skipped lines -/

/-- C9 counterexample: a line whose count field does not parse as an
integer is not skipped; it contributes a row (with null count) to the
dataset. -/
theorem malformed_line_contributes_row :
    scanFile ["1970-01-01T00:00:00 abc"] = [⟨some 0, none⟩] ∧
    scanFile ["1970-01-01T00:00:00 abc"] ≠ [] := by decide

/-- C9 amended: ingestion is per-line: each non-blank line contributes
exactly one row independently of the surrounding lines, a malformed field
in it becoming null while well-formed lines parse to their values. -/
theorem scan_lines_independent (pre post : List String) (l : String) :
    scanFile (pre ++ l :: post) =
      scanFile pre ++ (if l = "" then [] else [parseLine l]) ++ scanFile post ∧
    parseLine "1970-01-01T00:00:00 abc" = ⟨some 0, none⟩ ∧
    parseLine "garbage 99" = ⟨none, some 99⟩ ∧
    parseLine "1970-01-01T00:30:00 7" = ⟨some 1800, some 7⟩ := by
  refine ⟨?_, by decide, by decide, by decide⟩
  by_cases h : l = "" <;>
    simp [scanFile, List.filter_append, List.filter_cons, h]

end Traffic
